import Mathlib

/-!
Verification of the document-template population engine of the
Digital-Prompts-Generator repository (src/app.py).

The Python source is shallowly embedded below.  Text is modelled as
`List Char` (Python `str` slicing and iteration are character based).
Python dictionaries produced by the upstream JSON decoder are modelled
as association lists of JSON-ish values (`JVal`); `dict.get` with a
default is `pyGet`.  Fallible Python code (`raise` / uncaught
exceptions such as `AttributeError` from calling a `str` method on a
non-string) is modelled with `Except (List Char)`.

Formatting attributes that carry no text (fonts, point sizes, colours,
spacing) are not modelled; bold / italic flags and paragraph
indentation are, since the specification talks about them.
-/

set_option maxRecDepth 4000

/-- Characters treated as whitespace by Python `str.strip` (ASCII range). -/
def is_py_space (c : Char) : Bool :=
  c = ' ' || c = '\t' || c = '\n' || c = '\r' || c = '\x0b' || c = '\x0c'

/-- Convert a Lean string literal to the character-list representation. -/
def s2l (s : String) : List Char := s.data

/-- Python `str.lstrip()`. -/
def py_lstrip (l : List Char) : List Char := l.dropWhile is_py_space

/-- Python `str.rstrip()`. -/
def py_rstrip (l : List Char) : List Char := (l.reverse.dropWhile is_py_space).reverse

/-- Python `str.strip()`. -/
def py_strip (l : List Char) : List Char := py_rstrip (py_lstrip l)

/-- Boolean prefix test on character lists (Python `str.startswith`). -/
def starts_with : List Char → List Char → Bool
  | [], _ => true
  | _ :: _, [] => false
  | a :: as, b :: bs => a = b && starts_with as bs

/-- Boolean suffix test on character lists (Python `str.endswith`). -/
def ends_with (suf l : List Char) : Bool := starts_with suf.reverse l.reverse

/-- Python substring containment `needle in hay`. -/
def is_sub : List Char → List Char → Bool
  | n, [] => n.isEmpty
  | n, c :: t => starts_with n (c :: t) || is_sub n t

/-- Python `str.split('\n')` (on a string with the usual semantics:
`"" ↦ [""]`, separators produce empty fields). -/
def split_nl : List Char → List (List Char)
  | [] => [[]]
  | '\n' :: rest => [] :: split_nl rest
  | c :: rest =>
    match split_nl rest with
    | [] => [[c]]
    | a :: as => (c :: a) :: as

/-- Python `re.match(r'^\d+\.\s', s)` as used on a stripped line:
one or more digits, a dot, then a whitespace character. -/
def is_numbered (l : List Char) : Bool :=
  let ds := l.takeWhile Char.isDigit
  match ds, l.drop ds.length with
  | [], _ => false
  | _ :: _, '.' :: c :: _ => is_py_space c
  | _, _ => false

/-- Python `str.isupper()` restricted to ASCII letters: at least one
cased character and no lowercase character. -/
def py_isupper (l : List Char) : Bool :=
  l.any Char.isUpper && !(l.any Char.isLower)

/-- JSON-ish values as decoded from the external LLM response. -/
inductive JVal
  | str (s : List Char)
  | bool (b : Bool)
  | num (n : Int)
  | null
deriving DecidableEq

/-- Python truthiness of a `JVal`. -/
def py_truthy : JVal → Bool
  | .str s => !s.isEmpty
  | .bool b => b
  | .num n => n ≠ 0
  | .null => false

/-- Python `str(v)` (f-string interpolation). -/
def py_str : JVal → List Char
  | .str s => s
  | .bool b => if b then s2l ("True") else s2l ("False")
  | .num n => (toString n).data
  | .null => s2l ("None")

/-- The `AttributeError` raised when a `str` method is called on a
non-string value. -/
def attr_err : List Char := s2l ("AttributeError")

/-- Python `v.strip()` on an arbitrary value: succeeds only on strings. -/
def py_strip_e : JVal → Except (List Char) (List Char)
  | .str s => .ok (py_strip s)
  | _ => .error attr_err

/-- A record produced by the external LLM: a JSON object, modelled as an
association list.  Insertion (`d[k] = v`) conses at the front; lookup
takes the first binding. -/
abbrev RecJ : Type := List (List Char × JVal)

/-- Python `data.get(k, dflt)`. -/
def pyGet (p : RecJ) (k : List Char) (d : JVal) : JVal :=
  match p.find? (fun kv => decide (kv.fst = k)) with
  | some kv => kv.snd
  | none => d

/-!
### Rich-text rendering (`_make_run`, `_set_cell_text` of src/app.py)

`re.split(r'(\*\*.+?\*\*)', line)` is modelled by `split_bold`.  A match
is a `**`, a non-empty (lazy, hence shortest) run of characters, and a
closing `**`; `re.split` with one capturing group returns the literal
text between matches interleaved with the matches themselves (possibly
empty literals).
-/

theorem starts_with_iff : ∀ (p l : List Char), starts_with p l = true ↔ ∃ t, l = p ++ t := by
  intro p
  induction p with
  | nil =>
    intro l
    simp [starts_with]
  | cons a p ih =>
    intro l
    cases l with
    | nil => simp [starts_with]
    | cons b bs =>
      simp only [starts_with, Bool.and_eq_true, decide_eq_true_eq, ih, List.cons_append]
      constructor
      · rintro ⟨rfl, t, rfl⟩
        exact ⟨t, rfl⟩
      · rintro ⟨t, ht⟩
        cases ht
        exact ⟨rfl, t, rfl⟩

theorem starts_with_self_append (p t : List Char) : starts_with p (p ++ t) = true :=
  (starts_with_iff p (p ++ t)).mpr ⟨t, rfl⟩

/-- Given the characters after an opening `**`, find the lazy (shortest,
non-empty) body and the characters after the closing `**`:
the regex fragment `.+?\*\*`. -/
def find_close : List Char → Option (List Char × List Char)
  | [] => none
  | c :: rest =>
    if starts_with (s2l ("**")) rest then some ([c], rest.drop 2)
    else (find_close rest).map (fun ir => (c :: ir.1, ir.2))

theorem find_close_length : ∀ (l : List Char) ir, find_close l = some ir →
    ir.2.length + 3 ≤ l.length := by
  intro l
  induction l with
  | nil => intro ir h; simp [find_close] at h
  | cons c rest ih =>
    intro ir h
    simp only [find_close] at h
    by_cases hsw : starts_with (s2l ("**")) rest = true
    · rw [if_pos hsw] at h
      cases h
      obtain ⟨t, ht⟩ := (starts_with_iff _ rest).mp hsw
      subst ht
      simp [s2l]
    · rw [if_neg hsw] at h
      simp only [Option.map_eq_some'] at h
      obtain ⟨a, ha, hae⟩ := h
      have := ih a ha
      subst hae
      simp at this ⊢
      omega

/-- The part list produced by `re.split(r'(\*\*.+?\*\*)', ·)`:
`acc` is the (reversed) literal text accumulated since the last match.
A leading `**` with no closing `**` later in the text means no further
match exists anywhere, so the whole remainder is one literal part. -/
def split_bold_go (acc : List Char) (l : List Char) : List (List Char) :=
  if hsw : starts_with (s2l ("**")) l = true then
    match h : find_close (l.drop 2) with
    | some ir =>
      acc.reverse :: ('*' :: '*' :: ir.1 ++ ['*', '*']) :: split_bold_go [] ir.2
    | none => [acc.reverse ++ l]
  else
    match l with
    | [] => [acc.reverse]
    | c :: rest => split_bold_go (c :: acc) rest
termination_by l.length
decreasing_by
  · have hlen := find_close_length (l.drop 2) ir h
    obtain ⟨t, ht⟩ := (starts_with_iff _ l).mp hsw
    subst ht
    simp [s2l] at hlen ⊢
    omega
  · simp

/-- Structurally recursive (hence kernel-reducible) version of
`split_bold_go`, with a fuel argument; `split_bold` instantiates the
fuel with the list length, which `split_bold_fuel_eq` shows suffices. -/
def split_bold_fuel : Nat → List Char → List Char → List (List Char)
  | 0, acc, l => [acc.reverse ++ l]
  | fuel + 1, acc, l =>
    if starts_with (s2l ("**")) l then
      match find_close (l.drop 2) with
      | some ir =>
        acc.reverse :: ('*' :: '*' :: ir.1 ++ ['*', '*']) :: split_bold_fuel fuel [] ir.2
      | none => [acc.reverse ++ l]
    else
      match l with
      | [] => [acc.reverse]
      | c :: rest => split_bold_fuel fuel (c :: acc) rest

theorem split_bold_fuel_eq : ∀ (fuel : Nat) (acc l : List Char), l.length ≤ fuel →
    split_bold_fuel fuel acc l = split_bold_go acc l := by
  intro fuel
  induction fuel with
  | zero =>
    intro acc l h
    have hnil : l = [] := by
      cases l with
      | nil => rfl
      | cons a as => simp at h
    subst hnil
    rw [split_bold_go]
    simp [split_bold_fuel, starts_with]
  | succ fuel ih =>
    intro acc l h
    rw [split_bold_go]
    simp only [split_bold_fuel]
    by_cases hsw : starts_with (s2l ("**")) l = true
    · rw [if_pos hsw, dif_pos hsw]
      cases hfc : find_close (l.drop 2) with
      | none => rfl
      | some ir =>
        have hlen := find_close_length (l.drop 2) ir hfc
        obtain ⟨t, ht⟩ := (starts_with_iff _ l).mp hsw
        have h2 : ir.2.length ≤ fuel := by
          subst ht
          simp [s2l] at hlen h
          omega
        simp only [ih [] ir.2 h2]
    · rw [if_neg hsw, dif_neg hsw]
      cases l with
      | nil => rfl
      | cons c rest =>
        apply ih
        simp only [List.length_cons] at h
        omega

def split_bold (l : List Char) : List (List Char) := split_bold_fuel l.length [] l

theorem split_bold_eq_go (l : List Char) : split_bold l = split_bold_go [] l :=
  split_bold_fuel_eq l.length [] l (Nat.le_refl _)

/-- Python `part.startswith('**') and part.endswith('**')` as tested on
every part of the split (note: the test is purely syntactic, so a
literal part such as `"****"` also passes it). -/
def is_bold_part (p : List Char) : Bool :=
  starts_with (s2l ("**")) p && ends_with (s2l ("**")) p

/-- Python `part[2:-2]`. -/
def part_inner (p : List Char) : List Char := (p.drop 2).take (p.length - 4)

/-- A text run (`<w:r>`, built by `_make_run` or `add_run`). -/
structure RunF where
  text : List Char
  bold : Bool
  italic : Bool
  br : Bool
deriving DecidableEq

def mk_run (t : List Char) (b : Bool) : RunF := ⟨t, b, false, false⟩

/-- The runs produced for one `re.split` part inside `_set_cell_text`:
a detected `**…**` part gives a bold run with the delimiters stripped,
a non-empty literal part gives a run with the ambient `bold` flag,
an empty part gives nothing. -/
def part_run (bold : Bool) (p : List Char) : List RunF :=
  if is_bold_part p then [mk_run (part_inner p) true]
  else if p.isEmpty then []
  else [mk_run p bold]

/-- All runs for one display line. -/
def span_runs (bold : Bool) (l : List Char) : List RunF :=
  ((split_bold l).map (part_run bold)).flatten

/-- A paragraph inside a table cell (`<w:p>` as built by `_set_cell_text`):
the paragraph-mark bold flag, the bullet/numbered indentation, and runs. -/
structure Para where
  bold : Bool
  indent : Bool
  runs : List RunF
deriving DecidableEq

/-- The transformed display text of a line: bullets are re-written to
`• …` from the stripped text, numbered lines use the stripped text,
anything else is kept verbatim. -/
def display_of_line (line : List Char) : List Char :=
  let stripped := py_strip line
  let is_bullet := starts_with (s2l ("- ")) stripped || starts_with (s2l ("• ")) stripped
  if is_bullet then '•' :: ' ' :: stripped.drop 2
  else if is_numbered stripped then stripped
  else line

/-- One rendered paragraph of `_set_cell_text`. -/
def render_line (bold : Bool) (line : List Char) : Para :=
  let stripped := py_strip line
  let is_bullet := starts_with (s2l ("- ")) stripped || starts_with (s2l ("• ")) stripped
  ⟨bold, is_bullet || is_numbered stripped, span_runs bold (display_of_line line)⟩

/-- `_set_cell_text(cell, text, bold)`: the replacement paragraph list for
the cell.  (`text.split('\n') if text else ['']` equals `split_nl text`
also for the empty string.) -/
def set_cell_text (text : List Char) (bold : Bool) : List Para :=
  (split_nl text).map (render_line bold)

/-- The same entry point on an arbitrary record value, as Python executes
it: a falsy value short-circuits `text.split` (one empty line), a truthy
non-string raises `AttributeError` at `text.split('\n')`. -/
def set_cell_text_e (v : JVal) (bold : Bool) : Except (List Char) (List Para) :=
  if py_truthy v then
    match v with
    | .str s => .ok (set_cell_text s bold)
    | _ => .error attr_err
  else .ok (set_cell_text [] bold)

/-- A table cell: `id` is the identity of the underlying `<w:tc>` element
(horizontally merged cells appear at several row positions with the same
`id`). -/
structure Cell where
  id : Nat
  paras : List Para
deriving DecidableEq

def para_text (p : Para) : List Char := (p.runs.map RunF.text).flatten

/-- `_get_cell_text(cell)`: concatenate every `<w:t>` under the cell and
strip the result. -/
def get_cell_text (c : Cell) : List Char :=
  py_strip ((c.paras.map para_text).flatten)

/-!
### Document model and the assembler (`create_prompt_docx` of src/app.py)

A docx document is modelled by its pieces that the code touches:
the `settings.xml` children (by tag), the running-header text nodes,
the first table (a list of rows, each a list of cells), and the body
block-level elements.  The body list always ends with the document's
`sectPr` element; `python-docx`'s `add_paragraph` and the splice loop
both insert immediately before it.
-/

/-- A block-level element of a document body. -/
inductive BodyEl
  | par (runs : List RunF)
  | tbl (idx : Nat)
  | sectPr
  | other (tag : List Char)
deriving DecidableEq

structure Docx where
  settings : List (List Char)
  header : List (List Char)
  table : List (List Cell)
  body : List BodyEl
deriving DecidableEq

/-- `_fix_template_ref`: remove every settings child whose tag contains
`attachedTemplate`. -/
def fix_template_ref (settings : List (List Char)) : List (List Char) :=
  settings.filter (fun tag => !(is_sub (s2l ("attachedTemplate")) tag))

/-- `_update_header_filename`: overwrite the first header text node that
is non-empty and has non-empty stripped text; everything after it is
left as is. -/
def update_header_filename : List (List Char) → List Char → List (List Char)
  | [], _ => []
  | t :: rest, filename =>
    if !t.isEmpty ∧ !(py_strip t).isEmpty then filename :: rest
    else t :: update_header_filename rest filename

/-- `_unique_cells(row)`: keep the first occurrence of each underlying
`<w:tc>` element (cells of a horizontal merge share one element). -/
def unique_cells_go (seen : List Nat) : List Cell → List Cell
  | [] => []
  | c :: rest =>
    if c.id ∈ seen then unique_cells_go seen rest
    else c :: unique_cells_go (c.id :: seen) rest

def unique_cells (row : List Cell) : List Cell := unique_cells_go [] row

/-- Writing into a cell object mutates it at every row position where the
underlying element appears. -/
def update_cell (row : List Cell) (cid : Nat) (ps : List Para) : List Cell :=
  row.map (fun c => if c.id = cid then ⟨c.id, ps⟩ else c)

/-- The fixed label → record-key mapping, in the source's (dict-insertion)
iteration order. -/
def label_to_key : List (List Char × List Char) :=
  [ (s2l ("E-Mail Message"), s2l ("email_message")),
    (s2l ("Learning Objective"), s2l ("learning_objective")),
    (s2l ("Demonstrated AI Capability"), s2l ("demonstrated_ai_capability")),
    (s2l ("Test Response"), s2l ("test_response")),
    (s2l ("Attachment (if required)"), s2l ("attachment_text")) ]

/-- First label of `label_to_key` that is a substring of the row's
de-duplicated first cell text. -/
def first_label (left : List Char) : Option (List Char × List Char) :=
  label_to_key.find? (fun lk => is_sub lk.1 left)

/-- The per-row body of the table loop in `create_prompt_docx`. -/
def process_row (pid ai : JVal) (data : RecJ) (row : List Cell) :
    Except (List Char) (List Cell) :=
  match unique_cells row with
  | [] => .ok row
  | c0 :: rest =>
    let left := get_cell_text c0
    if is_sub (s2l ("DP##")) left || is_sub (s2l ("FP##")) left then
      -- header row: cell 0 gets the prompt id (bold), cell 1 is left
      -- alone, cell 2 (if present) gets the ai_prompt field
      match set_cell_text_e pid true with
      | .error e => .error e
      | .ok ps =>
        let row1 := update_cell row c0.id ps
        if h : 1 < rest.length then
          match set_cell_text_e ai false with
          | .error e => .error e
          | .ok ps2 => .ok (update_cell row1 (rest.get ⟨1, h⟩).id ps2)
        else .ok row1
    else
      match first_label left with
      | none => .ok row
      | some lk =>
        if rest.isEmpty then .ok row
        else
          match set_cell_text_e (pyGet data lk.2 (.str [])) false with
          | .error e => .error e
          | .ok ps => .ok (update_cell row (((c0 :: rest).getLast?).getD c0).id ps)

/-- Except-valued `List.mapM` (the table loop propagates the first
exception). -/
def map_e (f : α → Except (List Char) β) : List α → Except (List Char) (List β)
  | [] => .ok []
  | a :: as =>
    match f a with
    | .error e => .error e
    | .ok b =>
      match map_e f as with
      | .error e => .error e
      | .ok bs => .ok (b :: bs)

/-!
### Attachment splice (step 5 of the assembler)
-/

/-- The serialized bytes of a candidate attachment document, abstractly:
empty (falsy), a well-formed docx whose body holds the given elements,
or malformed bytes on which `Document(io.BytesIO(…))` raises. -/
inductive AttBytes
  | empty
  | wellFormed (els : List BodyEl)
  | malformed (msg : List Char)
deriving DecidableEq

/-- Python truthiness of the byte buffer. -/
def att_bytes_truthy : AttBytes → Bool
  | .empty => false
  | _ => true

/-- `Document(io.BytesIO(attachment_bytes))`. -/
def parse_docx : AttBytes → Except (List Char) (List BodyEl)
  | .wellFormed els => .ok els
  | .malformed msg => .error msg
  | .empty => .error (s2l ("Package not found"))

/-- Insert a body element immediately before the body's last element
(the captured `sectPr`); `python-docx`'s `add_paragraph` on these
documents inserts at the same position. -/
def insert_before_last (body : List BodyEl) (e : BodyEl) : List BodyEl :=
  match body with
  | [] => [e]
  | [x] => [e, x]
  | x :: rest => x :: insert_before_last rest e

/-- Does the element's tag end in `p` or `tbl`? -/
def is_p_tbl : BodyEl → Bool
  | .par _ => true
  | .tbl _ => true
  | _ => false

/-- The splice loop: every `w:p`/`w:tbl` element of the attachment body
is inserted before the captured `sectPr`. -/
def splice_loop (body : List BodyEl) (els : List BodyEl) : List BodyEl :=
  els.foldl (fun b e => if is_p_tbl e then insert_before_last b e else b) body

def page_break_p : BodyEl := .par [⟨[], false, false, true⟩]

def banner_p (an : JVal) : BodyEl :=
  .par [⟨s2l ("SAMPLE ATTACHMENT — ") ++ py_str an, true, false, false⟩]

def note_p : BodyEl :=
  .par [⟨s2l ("This sample file was generated for your AI prompt exercise. Use it as the input document when running the prompt on the previous page."), false, true, false⟩]

def fallback_p (e : List Char) : BodyEl :=
  .par [⟨s2l ("[Could not merge attachment: ") ++ e ++ s2l ("]"), false, false, false⟩]

/-- The `if attachment_bytes and attachment_name:` block of
`create_prompt_docx`: page break, banner, note, then the try/except
splice; a parse failure is caught and degraded to a fallback paragraph,
so this step is total. -/
def append_attachment (body : List BodyEl) (ab : Option AttBytes)
    (an : Option JVal) : List BodyEl :=
  match ab, an with
  | some ab, some an =>
    if att_bytes_truthy ab && py_truthy an then
      let b1 := insert_before_last body page_break_p
      let b2 := insert_before_last b1 (banner_p an)
      let b3 := insert_before_last b2 note_p
      match parse_docx ab with
      | .ok els => splice_loop b3 els
      | .error e => insert_before_last b3 (fallback_p e)
    else body
  | _, _ => body

/-!
### `create_prompt_docx`
-/

def template_name (is_friday : Bool) : List Char :=
  if is_friday then s2l ("Friday_Prompt_Template.docx")
  else s2l ("Daily_Prompt_Template.docx")

def template_missing_msg (name : List Char) : List Char :=
  s2l ("Template not found: templates/") ++ name ++
    s2l ("\nPlease place Daily_Prompt_Template.docx and Friday_Prompt_Template.docx in the 'templates/' folder next to app.py.")

def k_prompt_id : List Char := s2l ("prompt_id")
def k_demo : List Char := s2l ("demonstrated_ai_capability")
def k_att_req : List Char := s2l ("attachment_required")
def k_att_desc : List Char := s2l ("attachment_description")
def k_att_text : List Char := s2l ("attachment_text")
def k_ai_prompt : List Char := s2l ("ai_prompt")
def k_att_content : List Char := s2l ("attachment_content")
def k_att_filename : List Char := s2l ("attachment_filename")

/-- `create_prompt_docx(data, is_friday, …, attachment_bytes,
attachment_name)`.  The template store is a parameter (the `templates/`
directory); a missing template raises `FileNotFoundError` before the
document is touched. -/
def create_prompt_docx (templates : List Char → Option Docx) (data : RecJ)
    (is_friday : Bool) (attachment_bytes : Option AttBytes)
    (attachment_name : Option JVal) : Except (List Char) Docx :=
  match templates (template_name is_friday) with
  | none => .error (template_missing_msg (template_name is_friday))
  | some t =>
    let pid := pyGet data k_prompt_id (.str (s2l ("DP01")))
    match py_strip_e (pyGet data k_demo (.str (s2l ("Prompt")))) with
    | .error e => .error e
    | .ok topic =>
      let file_label := py_str pid ++ s2l (" - Prompt Topic - ") ++ topic
      let att :=
        if py_truthy (pyGet data k_att_req .null) then pyGet data k_att_desc (.str [])
        else .str (s2l ("None required"))
      let data2 : RecJ := (k_att_text, att) :: data
      match map_e (process_row pid (pyGet data2 k_ai_prompt (.str [])) data2) t.table with
      | .error e => .error e
      | .ok tbl =>
        .ok ⟨fix_template_ref t.settings,
             update_header_filename t.header file_label,
             tbl,
             append_attachment t.body attachment_bytes attachment_name⟩

/-!
### `generate_attachment_docx` and `create_zip`
-/

/-- The paragraph built for one line of the attachment body content. -/
def att_line_par (line : List Char) : BodyEl :=
  let stripped := py_strip line
  if stripped.isEmpty then .par []
  else if py_isupper stripped ||
      (ends_with (s2l (":")) stripped && stripped.length < 60) then
    -- heading-like line: single bold run of the stripped text
    .par [mk_run stripped true]
  else if starts_with (s2l ("- ")) stripped || starts_with (s2l ("• ")) stripped then
    .par [mk_run ('•' :: ' ' :: stripped.drop 2) false]
  else if is_numbered stripped then
    .par [mk_run stripped false]
  else
    -- `**bold**` spans of the raw (unstripped) line
    .par (span_runs false line)

/-- `generate_attachment_docx(prompt)`: `None` when the stripped
`attachment_content` is empty, otherwise the body elements of a fresh
document (title, spacer, note banner, one paragraph per content line,
and the trailing `sectPr` of the new document). -/
def generate_attachment_docx (p : RecJ) :
    Except (List Char) (Option (List BodyEl)) :=
  match py_strip_e (pyGet p k_att_content (.str [])) with
  | .error e => .error e
  | .ok content =>
    if content.isEmpty then .ok none
    else
      let description := pyGet p k_att_desc (.str (s2l ("Sample attachment")))
      let pid := pyGet p k_prompt_id (.str [])
      let title := BodyEl.par [mk_run (py_str pid ++ s2l (" — ") ++ py_str description) true]
      let spacer := BodyEl.par []
      let note := BodyEl.par
        [mk_run (s2l ("📋 SAMPLE FILE FOR AI EXERCISE  —  Use this document as input for your prompt.")) true]
      .ok (some (title :: spacer :: note :: (split_nl content).map att_line_par
            ++ [BodyEl.sectPr]))

/-- Python `s.rsplit('.', 1)[0]`. -/
def rsplit_dot1 (s : List Char) : List Char :=
  if s.contains '.' then ((s.reverse.dropWhile (fun c => !(c = '.'))).drop 1).reverse
  else s

/-- The filename-extension coercion in `create_zip`:
`if att_name and not att_name.endswith('.docx'): att_name =
att_name.rsplit('.', 1)[0] + '.docx'` — on a truthy non-string this
raises at `.endswith`. -/
def coerce_att_name : Option JVal → Except (List Char) (Option JVal)
  | none => .ok none
  | some v =>
    if py_truthy v then
      match v with
      | .str s =>
        .ok (some (.str (if ends_with (s2l (".docx")) s then s
                         else rsplit_dot1 s ++ s2l (".docx"))))
      | _ => .error attr_err
    else .ok (some v)

/-- Characters replaced by `-` in the standalone attachment filename. -/
def zip_bad_chars : List Char := s2l ("\\/:*?\"<>|")

/-- One entry written into the zip archive. -/
inductive ZEntry
  | mainDoc (d : Docx)
  | attDoc (els : List BodyEl)
deriving DecidableEq

/-- The loop body of `create_zip` over `zip(prompts, is_friday_list)`,
producing the named entries in archive order. -/
def zip_loop (templates : List Char → Option Docx) :
    List (RecJ × Bool) → Except (List Char) (List (List Char × ZEntry))
  | [] => .ok []
  | (p, f) :: rest =>
    let pid := pyGet p k_prompt_id (.str (s2l ("P01")))
    match py_strip_e (pyGet p k_demo (.str (s2l ("Prompt")))) with
    | .error e => .error e
    | .ok topic =>
      let has_att := py_truthy (pyGet p k_att_req .null)
      match (if has_att then generate_attachment_docx p else .ok none) with
      | .error e => .error e
      | .ok att_els =>
        let att_name0 : Option JVal :=
          if has_att then some (pyGet p k_att_filename (.str (s2l ("Attachment.docx"))))
          else none
        match coerce_att_name att_name0 with
        | .error e => .error e
        | .ok att_name =>
          let att_bytes := att_els.map AttBytes.wellFormed
          match create_prompt_docx templates p f att_bytes att_name with
          | .error e => .error e
          | .ok main =>
            let prompt_fname := py_str pid ++ s2l (" - ") ++ topic ++ s2l (".docx")
            let stand : Except (List Char) (List (List Char × ZEntry)) :=
              match att_els, att_name with
              | some els, some an =>
                if py_truthy an then
                  match py_strip_e (pyGet p k_att_desc (.str (s2l ("Sample")))) with
                  | .error e => .error e
                  | .ok short_desc =>
                    let short_desc :=
                      if 50 < short_desc.length then py_rstrip (short_desc.take 50)
                      else short_desc
                    let safe_desc := short_desc.map
                      (fun c => if c ∈ zip_bad_chars then '-' else c)
                    .ok [(py_str pid ++ s2l (" - Sample Attachment - ") ++ safe_desc
                          ++ s2l (".docx"), ZEntry.attDoc els)]
                else .ok []
              | _, _ => .ok []
            match stand with
            | .error e => .error e
            | .ok standEntries =>
              match zip_loop templates rest with
              | .error e => .error e
              | .ok restEntries =>
                .ok ((prompt_fname, ZEntry.mainDoc main) :: standEntries ++ restEntries)

/-- `create_zip(prompts, is_friday_list, agent, industry)`: the list of
(filename, document) entries written into the archive, in order. -/
def create_zip (templates : List Char → Option Docx) (prompts : List RecJ)
    (flags : List Bool) : Except (List Char) (List (List Char × ZEntry)) :=
  zip_loop templates (prompts.zip flags)

/-!
### Concrete fixtures used for evaluation
-/

deriving instance DecidableEq for Except

/-- A small template: one stale `attachedTemplate` settings entry, one
header text node, no table rows, a body holding only the `sectPr`. -/
def tpl1 : Docx :=
  ⟨[s2l ("w:attachedTemplate"), s2l ("w:zoom")], [s2l ("HDR")], [], [BodyEl.sectPr]⟩

/-- A template store where both named templates resolve to `tpl1`. -/
def templates1 : List Char → Option Docx := fun _ => some tpl1

/-- An empty template store (the `templates/` folder is missing). -/
def templates_none : List Char → Option Docx := fun _ => none

/-- Number of archive entries of a packaging result. -/
def num_entries (e : Except (List Char) (List (List Char × ZEntry))) : Nat :=
  match e with
  | .ok l => l.length
  | .error _ => 0

/-- Names of the archive entries of a packaging result. -/
def entry_names (e : Except (List Char) (List (List Char × ZEntry))) : List (List Char) :=
  match e with
  | .ok l => l.map Prod.fst
  | .error _ => []

/-!
### Shared lemmas
-/

theorem set_cell_text_e_str (s : List Char) (b : Bool) :
    set_cell_text_e (.str s) b = .ok (set_cell_text s b) := by
  cases s with
  | nil => simp [set_cell_text_e, py_truthy]
  | cons c cs => simp [set_cell_text_e, py_truthy]

/-- Is the value a JSON string? -/
def JVal.isStr : JVal → Bool
  | .str _ => true
  | _ => false

theorem isStr_exists {v : JVal} (h : v.isStr = true) : ∃ s, v = .str s := by
  cases v with
  | str s => exact ⟨s, rfl⟩
  | bool b => simp [JVal.isStr] at h
  | num n => simp [JVal.isStr] at h
  | null => simp [JVal.isStr] at h

/-- Well-typedness of a record towards the string-consuming code paths:
every binding is a string, except possibly `attachment_required`. -/
def WT (p : RecJ) : Prop :=
  ∀ kv ∈ p, (kv.2.isStr = true) ∨ kv.1 = k_att_req

theorem pyGet_isStr (p : RecJ) (hp : WT p) (k : List Char) (hk : k ≠ k_att_req)
    (d : JVal) (hd : d.isStr = true) : (pyGet p k d).isStr = true := by
  unfold pyGet
  cases hfind : p.find? (fun kv => decide (kv.fst = k)) with
  | none => exact hd
  | some kv =>
    have hmem : kv ∈ p := List.mem_of_find?_eq_some hfind
    have hkey : kv.fst = k := by
      have := List.find?_some hfind
      simpa using this
    rcases hp kv hmem with h | h
    · exact h
    · exact absurd (hkey ▸ h) hk

theorem pyGet_cons (k0 : List Char) (v0 : JVal) (p : RecJ) (k : List Char) (d : JVal) :
    pyGet ((k0, v0) :: p) k d = if k0 = k then v0 else pyGet p k d := by
  by_cases h : k0 = k
  · simp [pyGet, List.find?, h]
  · simp [pyGet, List.find?, h]

theorem map_e_ok {α β : Type} (f : α → Except (List Char) β) (l : List α)
    (h : ∀ a ∈ l, ∃ b, f a = .ok b) : ∃ bs, map_e f l = .ok bs := by
  induction l with
  | nil => exact ⟨[], rfl⟩
  | cons a as ih =>
    obtain ⟨b, hb⟩ := h a (by simp)
    obtain ⟨bs, hbs⟩ := ih (fun x hx => h x (by simp [hx]))
    exact ⟨b :: bs, by simp [map_e, hb, hbs]⟩

theorem unique_cells_go_sub (seen : List Nat) (l : List Cell) :
    ∀ c ∈ unique_cells_go seen l, c ∈ l := by
  induction l generalizing seen with
  | nil => intro c hc; simp [unique_cells_go] at hc
  | cons a as ih =>
    intro c hc
    simp only [unique_cells_go] at hc
    by_cases hmem : a.id ∈ seen
    · rw [if_pos hmem] at hc
      exact List.mem_cons_of_mem a (ih seen c hc)
    · rw [if_neg hmem] at hc
      rcases List.mem_cons.mp hc with hc | hc
      · simp [hc]
      · exact List.mem_cons_of_mem a (ih (a.id :: seen) c hc)

theorem unique_cells_sub (row : List Cell) : ∀ c ∈ unique_cells row, c ∈ row :=
  unique_cells_go_sub [] row

theorem unique_cells_go_nodup (l : List Cell) : ∀ seen : List Nat,
    ((unique_cells_go seen l).map Cell.id).Nodup ∧
      ∀ c ∈ unique_cells_go seen l, c.id ∉ seen := by
  induction l with
  | nil => intro seen; simp [unique_cells_go]
  | cons a as ih =>
    intro seen
    simp only [unique_cells_go]
    by_cases hmem : a.id ∈ seen
    · rw [if_pos hmem]
      exact ih seen
    · rw [if_neg hmem]
      obtain ⟨hnd, hout⟩ := ih (a.id :: seen)
      refine ⟨?_, ?_⟩
      · simp only [List.map_cons, List.nodup_cons]
        constructor
        · intro hin
          simp only [List.mem_map] at hin
          obtain ⟨c, hc, hcid⟩ := hin
          have := hout c hc
          simp [hcid] at this
        · exact hnd
      · intro c hc
        rcases List.mem_cons.mp hc with hc | hc
        · simp [hc, hmem]
        · have := hout c hc
          intro hin
          exact this (by simp [hin])

theorem unique_cells_ids_nodup (row : List Cell) :
    ((unique_cells row).map Cell.id).Nodup :=
  (unique_cells_go_nodup row []).1

theorem update_cell_mem_ne {row : List Cell} {cid : Nat} {ps : List Para}
    {c : Cell} (hc : c ∈ row) (hne : c.id ≠ cid) : c ∈ update_cell row cid ps := by
  simp only [update_cell, List.mem_map]
  exact ⟨c, hc, by simp [hne]⟩

/-!
### C7 — template missing
-/

/-- C7: for every record and variant flag, when the template selected by
the variant flag is absent from the template store, `create_prompt_docx`
fails with the template-missing error before touching any document, for
any attachment arguments; the error is the final result of the request
(no retry, no partial document). -/
theorem c7_template_missing (templates : List Char → Option Docx) (data : RecJ)
    (f : Bool) (ab : Option AttBytes) (an : Option JVal)
    (h : templates (template_name f) = none) :
    create_prompt_docx templates data f ab an =
      .error (template_missing_msg (template_name f)) := by
  simp [create_prompt_docx, h]

theorem c7_template_missing_witness :
    create_prompt_docx templates_none [] false none none =
      .error (template_missing_msg (template_name false)) :=
  c7_template_missing templates_none [] false none none rfl

/-!
### C8 — the template-reference fix is idempotent and unconditional
-/

/-- C8: stripping the `attachedTemplate` settings entries is idempotent,
and `create_prompt_docx` applies it unconditionally: every successfully
assembled document carries exactly the fixed settings of its template,
whatever the record and attachment arguments were. -/
theorem c8_fix_template_ref_idempotent :
    (∀ s : List (List Char),
      fix_template_ref (fix_template_ref s) = fix_template_ref s)
    ∧ (∀ (templates : List Char → Option Docx) (t : Docx) (data : RecJ)
        (f : Bool) (ab : Option AttBytes) (an : Option JVal) (d : Docx),
        templates (template_name f) = some t →
        create_prompt_docx templates data f ab an = .ok d →
        d.settings = fix_template_ref t.settings) := by
  constructor
  · intro s
    simp only [fix_template_ref]
    induction s with
    | nil => rfl
    | cons a s ih =>
      by_cases h : is_sub (s2l ("attachedTemplate")) a
      · simp [List.filter_cons, h, ih]
      · simp [List.filter_cons, h, ih]
  · intro templates t data f ab an d ht hok
    simp only [create_prompt_docx, ht] at hok
    cases h1 : py_strip_e (pyGet data k_demo (.str (s2l ("Prompt")))) with
    | error e => rw [h1] at hok; cases hok
    | ok topic =>
      rw [h1] at hok
      simp only at hok
      cases h2 : map_e
          (process_row (pyGet data k_prompt_id (.str (s2l ("DP01"))))
            (pyGet ((k_att_text,
              if py_truthy (pyGet data k_att_req .null) then pyGet data k_att_desc (.str [])
              else .str (s2l ("None required"))) :: data) k_ai_prompt (.str []))
            ((k_att_text,
              if py_truthy (pyGet data k_att_req .null) then pyGet data k_att_desc (.str [])
              else .str (s2l ("None required"))) :: data))
          t.table with
      | error e => rw [h2] at hok; cases hok
      | ok tbl =>
        rw [h2] at hok
        cases hok
        rfl

theorem c8_witness :
    (⟨[s2l ("w:zoom")], [s2l ("DP01 - Prompt Topic - Prompt")], [],
      [BodyEl.sectPr]⟩ : Docx).settings = fix_template_ref tpl1.settings :=
  c8_fix_template_ref_idempotent.2 templates1 tpl1 [] false none none _ rfl (by decide)

theorem nodup_ids_get_ne (u : List Cell) (h : (u.map Cell.id).Nodup)
    {i j : Nat} (hi : i < u.length) (hj : j < u.length) (hij : i ≠ j) :
    (u.get ⟨i, hi⟩).id ≠ (u.get ⟨j, hj⟩).id := by
  intro he
  have hi2 : i < (u.map Cell.id).length := by simpa using hi
  have hj2 : j < (u.map Cell.id).length := by simpa using hj
  have hm : (u.map Cell.id).get ⟨i, hi2⟩ = (u.map Cell.id).get ⟨j, hj2⟩ := by
    simpa [List.get_map] using he
  have hfin := h.get_inj_iff.mp hm
  exact hij (by simpa using hfin)

/-!
### C1 — header row handling
-/

/-- C1: on a table row whose de-duplicated first cell contains `DP##` or
`FP##`, the loop body writes the prompt id (bold) into de-duplicated
cell 0, writes the `ai_prompt` field into de-duplicated cell 2 exactly
when at least 3 de-duplicated cells exist, leaves de-duplicated cell 1
(and every other cell) untouched, and does no label matching (the
result does not depend on the record `data`). -/
theorem c1_header_row (ps as : List Char) (data : RecJ) (row : List Cell)
    (c0 : Cell) (rest : List Cell)
    (hu : unique_cells row = c0 :: rest)
    (hdr : (is_sub (s2l ("DP##")) (get_cell_text c0)
        || is_sub (s2l ("FP##")) (get_cell_text c0)) = true) :
    (∀ h2 : 1 < rest.length,
      process_row (.str ps) (.str as) data row =
        .ok (update_cell (update_cell row c0.id (set_cell_text ps true))
              (rest.get ⟨1, h2⟩).id (set_cell_text as false)))
    ∧ (¬ 1 < rest.length →
      process_row (.str ps) (.str as) data row =
        .ok (update_cell row c0.id (set_cell_text ps true)))
    ∧ (∀ h0 : 0 < rest.length, ∀ row' : List Cell,
      process_row (.str ps) (.str as) data row = .ok row' →
      rest.get ⟨0, h0⟩ ∈ row') := by
  have heq : process_row (.str ps) (.str as) data row =
      if h2 : 1 < rest.length then
        .ok (update_cell (update_cell row c0.id (set_cell_text ps true))
              (rest.get ⟨1, h2⟩).id (set_cell_text as false))
      else .ok (update_cell row c0.id (set_cell_text ps true)) := by
    simp only [process_row, hu, hdr, set_cell_text_e_str, if_true]
  have hnd : ((c0 :: rest).map Cell.id).Nodup := by
    rw [← hu]; exact unique_cells_ids_nodup row
  refine ⟨?_, ?_, ?_⟩
  · intro h2
    rw [heq, dif_pos h2]
  · intro h2
    rw [heq, dif_neg h2]
  · intro h0 row' hok
    have hc1u : rest.get ⟨0, h0⟩ ∈ unique_cells row := by
      rw [hu]
      exact List.mem_cons_of_mem c0 (rest.get_mem 0 h0)
    have hc1row : rest.get ⟨0, h0⟩ ∈ row := unique_cells_sub row _ hc1u
    have hlen0 : (1 : Nat) < (c0 :: rest).length := by simp; omega
    have hget1 : (c0 :: rest).get ⟨1, hlen0⟩ = rest.get ⟨0, h0⟩ := rfl
    have hzero : (0 : Nat) < (c0 :: rest).length := by simp
    have hget0 : (c0 :: rest).get ⟨0, hzero⟩ = c0 := rfl
    have hne0 : (rest.get ⟨0, h0⟩).id ≠ c0.id := by
      have := @nodup_ids_get_ne (c0 :: rest) hnd 1 0 hlen0 hzero (by decide)
      simpa [hget1, hget0] using this
    rw [heq] at hok
    by_cases h2 : 1 < rest.length
    · rw [dif_pos h2] at hok
      cases hok
      have hlen2 : (2 : Nat) < (c0 :: rest).length := by simp; omega
      have hget2 : (c0 :: rest).get ⟨2, hlen2⟩ = rest.get ⟨1, h2⟩ := rfl
      have hne2 : (rest.get ⟨0, h0⟩).id ≠ (rest.get ⟨1, h2⟩).id := by
        have := @nodup_ids_get_ne (c0 :: rest) hnd 1 2 hlen0 hlen2 (by decide)
        simpa [hget1, hget2] using this
      exact update_cell_mem_ne (update_cell_mem_ne hc1row hne0) hne2
    · rw [dif_neg h2] at hok
      cases hok
      exact update_cell_mem_ne hc1row hne0

/-- A concrete header row: a `DP##` placeholder cell, the `AI Prompt`
descriptor cell, and an empty content cell. -/
def row_hdr : List Cell :=
  [⟨0, [⟨false, false, [mk_run (s2l ("DP##-__")) false]⟩]⟩,
   ⟨1, [⟨false, false, [mk_run (s2l ("AI Prompt")) false]⟩]⟩,
   ⟨2, []⟩]

theorem c1_header_row_witness :
    process_row (.str (s2l ("DP01"))) (.str (s2l ("Fill"))) [] row_hdr =
      .ok (update_cell (update_cell row_hdr 0 (set_cell_text (s2l ("DP01")) true)) 2
            (set_cell_text (s2l ("Fill")) false)) :=
  (c1_header_row (s2l ("DP01")) (s2l ("Fill")) [] row_hdr
      ⟨0, [⟨false, false, [mk_run (s2l ("DP##-__")) false]⟩]⟩
      [⟨1, [⟨false, false, [mk_run (s2l ("AI Prompt")) false]⟩]⟩, ⟨2, []⟩]
      (by decide) (by decide)).1 (by decide)

/-!
### C2 — content row label matching
-/

/-- C2 (amended): on a non-header row with at least two de-duplicated
cells, the first label of `label_to_key` contained in the de-duplicated
first cell's text wins and its (string) field value is written into the
last de-duplicated cell; a row whose first cell matches no label, or a
row with a single de-duplicated cell, is left unmodified; in every case
no cell other than the last de-duplicated one is modified. -/
theorem c2_content_row (pid ai : JVal) (data : RecJ) (row : List Cell)
    (c0 : Cell) (rest : List Cell)
    (hu : unique_cells row = c0 :: rest)
    (hdr : (is_sub (s2l ("DP##")) (get_cell_text c0)
        || is_sub (s2l ("FP##")) (get_cell_text c0)) = false) :
    (∀ l k fv, first_label (get_cell_text c0) = some (l, k) → rest ≠ [] →
      pyGet data k (.str []) = .str fv →
      process_row pid ai data row =
        .ok (update_cell row (((c0 :: rest).getLast?).getD c0).id
              (set_cell_text fv false)))
    ∧ (first_label (get_cell_text c0) = none →
      process_row pid ai data row = .ok row)
    ∧ (rest = [] → process_row pid ai data row = .ok row)
    ∧ (∀ row' : List Cell, process_row pid ai data row = .ok row' →
      ∀ c ∈ row, c.id ≠ (((c0 :: rest).getLast?).getD c0).id → c ∈ row') := by
  refine ⟨?_, ?_, ?_, ?_⟩
  · intro l k fv hfl hne hfv
    have hre : rest.isEmpty = false := by
      cases rest with
      | nil => exact absurd rfl hne
      | cons a as => rfl
    simp only [process_row, hu, hdr, hfl, hre, Bool.false_eq_true, if_false, hfv,
      set_cell_text_e_str]
  · intro hfl
    simp only [process_row, hu, hdr, hfl, Bool.false_eq_true, if_false]
  · intro hrest
    subst hrest
    cases hfl : first_label (get_cell_text c0) with
    | none => simp only [process_row, hu, hdr, hfl, Bool.false_eq_true, if_false]
    | some lk => simp only [process_row, hu, hdr, hfl, Bool.false_eq_true, if_false,
        List.isEmpty_nil, if_true]
  · intro row' hok c hc hcne
    simp only [process_row, hu, hdr, Bool.false_eq_true, if_false] at hok
    cases hfl : first_label (get_cell_text c0) with
    | none =>
      simp only [hfl] at hok
      cases hok
      exact hc
    | some lk =>
      simp only [hfl] at hok
      by_cases hre : rest.isEmpty
      · rw [if_pos hre] at hok
        cases hok
        exact hc
      · rw [if_neg hre] at hok
        cases hset : set_cell_text_e (pyGet data lk.2 (.str [])) false with
        | error e => rw [hset] at hok; cases hok
        | ok ps =>
          rw [hset] at hok
          cases hok
          exact update_cell_mem_ne hc hcne

/-- A concrete content row: label cell `Test Response` and an empty
content cell. -/
def row_content : List Cell :=
  [⟨0, [⟨false, false, [mk_run (s2l ("Test Response")) false]⟩]⟩, ⟨1, []⟩]

theorem c2_content_row_witness :
    process_row .null .null [(s2l ("test_response"), .str (s2l ("Yo")))] row_content =
      .ok (update_cell row_content 1 (set_cell_text (s2l ("Yo")) false)) :=
  (c2_content_row .null .null [(s2l ("test_response"), .str (s2l ("Yo")))] row_content
      ⟨0, [⟨false, false, [mk_run (s2l ("Test Response")) false]⟩]⟩ [⟨1, []⟩]
      (by decide) (by decide)).1
    (s2l ("Test Response")) (s2l ("test_response")) (s2l ("Yo"))
    (by decide) (by decide) (by decide)

/-- A single-cell row whose only cell contains a label. -/
def cell_single : Cell := ⟨0, [⟨false, false, [mk_run (s2l ("E-Mail Message")) false]⟩]⟩

/-- C2 counterexample: a row with one de-duplicated cell containing
`E-Mail Message` is left unmodified although the claim requires the
field value to be written into its last (only) cell; and a wrong-typed
field value raises instead of being written. -/
theorem c2_counterexample :
    process_row .null .null [(s2l ("email_message"), .str (s2l ("hello")))] [cell_single] =
      .ok [cell_single]
    ∧ is_sub (s2l ("E-Mail Message")) (get_cell_text cell_single) = true
    ∧ cell_single.paras ≠ set_cell_text (s2l ("hello")) false
    ∧ process_row .null .null [(s2l ("email_message"), .num 1)]
        [cell_single, ⟨1, []⟩] = .error attr_err := by
  refine ⟨by decide, by decide, by decide, by decide⟩

/-!
### C5 — bold span rendering
-/

theorem s2l_sstar : s2l ("**") = ['*', '*'] := rfl

theorem starts_sstar_false {c : Char} (rest : List Char) (hc : c ≠ '*') :
    starts_with (s2l ("**")) (c :: rest) = false := by
  have hd : decide ('*' = c) = false := by
    simp only [decide_eq_false_iff_not]
    exact fun h => hc h.symm
  simp [s2l_sstar, starts_with, hd]

theorem split_bold_go_lit (m : List Char) (hm : '*' ∉ m) :
    ∀ acc, split_bold_go acc m = [acc.reverse ++ m] := by
  induction m with
  | nil =>
    intro acc
    rw [split_bold_go]
    simp [starts_with, s2l_sstar]
  | cons c rest ih =>
    intro acc
    have hc : c ≠ '*' := fun h => hm (by simp [h])
    have hrest : '*' ∉ rest := fun h => hm (by simp [h])
    rw [split_bold_go, dif_neg (by simp [starts_sstar_false rest hc])]
    exact (ih hrest (c :: acc)).trans (by simp)

theorem split_bold_go_pre (pre : List Char) (hp : '*' ∉ pre) :
    ∀ acc m, split_bold_go acc (pre ++ '*' :: '*' :: m) =
      split_bold_go (pre.reverse ++ acc) ('*' :: '*' :: m) := by
  induction pre with
  | nil => intro acc m; simp
  | cons c pre ih =>
    intro acc m
    have hc : c ≠ '*' := fun h => hp (by simp [h])
    have hpre : '*' ∉ pre := fun h => hp (by simp [h])
    rw [List.cons_append, split_bold_go,
      dif_neg (by simp [starts_sstar_false (pre ++ '*' :: '*' :: m) hc])]
    have harg : pre.reverse ++ (c :: acc) = (c :: pre).reverse ++ acc := by simp
    exact (ih hpre (c :: acc) m).trans (by rw [harg])

theorem find_close_append (x : List Char) (hx0 : x ≠ []) (hx : '*' ∉ x)
    (post : List Char) : find_close (x ++ '*' :: '*' :: post) = some (x, post) := by
  induction x with
  | nil => exact absurd rfl hx0
  | cons c x ih =>
    rw [List.cons_append, find_close]
    cases x with
    | nil =>
      rw [if_pos]
      · simp
      · have : ('*' :: '*' :: post) = s2l ("**") ++ post := by simp [s2l_sstar]
        simp only [List.nil_append, this]
        exact starts_with_self_append _ _
    | cons d x2 =>
      have hd : d ≠ '*' := fun h => hx (by simp [h])
      have hx2 : '*' ∉ (d :: x2) := fun h => hx (List.mem_cons_of_mem c h)
      rw [if_neg (by simp [List.cons_append, starts_sstar_false _ hd])]
      rw [ih (by simp) hx2]
      rfl

theorem split_bold_decomp (pre x post : List Char) (hp : '*' ∉ pre) (hx0 : x ≠ [])
    (hx : '*' ∉ x) (hpost : '*' ∉ post) :
    split_bold (pre ++ ('*' :: '*' :: (x ++ ('*' :: '*' :: post)))) =
      [pre, '*' :: '*' :: (x ++ ['*', '*']), post] := by
  rw [split_bold, split_bold_fuel_eq _ _ _ (Nat.le_refl _)]
  rw [split_bold_go_pre pre hp [] (x ++ '*' :: '*' :: post)]
  rw [split_bold_go]
  rw [dif_pos (by
    have : ('*' :: '*' :: (x ++ '*' :: '*' :: post)) =
        s2l ("**") ++ (x ++ '*' :: '*' :: post) := by simp [s2l_sstar]
    rw [this]
    exact starts_with_self_append _ _)]
  have hdrop : ('*' :: '*' :: (x ++ '*' :: '*' :: post)).drop 2 = x ++ '*' :: '*' :: post := rfl
  rw [hdrop, find_close_append x hx0 hx post]
  simp [split_bold_go_lit post hpost []]

theorem is_bold_part_lit {p : List Char} (hp : '*' ∉ p) : is_bold_part p = false := by
  cases p with
  | nil => rfl
  | cons c rest =>
    have hc : c ≠ '*' := fun h => hp (by simp [h])
    simp [is_bold_part, starts_sstar_false rest hc]

theorem part_run_lit {p : List Char} (hp : '*' ∉ p) (b : Bool) :
    part_run b p = if p.isEmpty then [] else [mk_run p b] := by
  simp [part_run, is_bold_part_lit hp]

theorem is_bold_part_match (x : List Char) :
    is_bold_part ('*' :: '*' :: (x ++ ['*', '*'])) = true := by
  simp only [is_bold_part, Bool.and_eq_true]
  constructor
  · simp [s2l_sstar, starts_with]
  · rw [ends_with, s2l_sstar]
    have h2 : (['*', '*'] : List Char).reverse = ['*', '*'] := rfl
    rw [h2]
    have h3 : ('*' :: '*' :: (x ++ ['*', '*'])).reverse =
        ['*', '*'] ++ (x.reverse ++ ['*', '*']) := by simp
    rw [h3]
    exact starts_with_self_append _ _

theorem part_inner_match (x : List Char) :
    part_inner ('*' :: '*' :: (x ++ ['*', '*'])) = x := by
  have hd : ('*' :: '*' :: (x ++ ['*', '*'])).drop 2 = x ++ ['*', '*'] := rfl
  have hl : ('*' :: '*' :: (x ++ ['*', '*'])).length - 4 = x.length := by simp
  rw [part_inner, hd, hl]
  exact List.take_left x ['*', '*']

theorem part_run_match (b : Bool) (x : List Char) :
    part_run b ('*' :: '*' :: (x ++ ['*', '*'])) = [mk_run x true] := by
  rw [part_run, if_pos (is_bold_part_match x), part_inner_match]

/-- C5: for every line of the shape `pre **x** post` (with `x` non-empty
and no further `*` around), the cell renderer produces a bold run whose
text is exactly `x`, with the surrounding literal text preserved
verbatim in unbolded runs. -/
theorem c5_bold_spans (pre x post : List Char) (hp : '*' ∉ pre) (hx0 : x ≠ [])
    (hx : '*' ∉ x) (hpost : '*' ∉ post) :
    span_runs false (pre ++ ('*' :: '*' :: (x ++ ('*' :: '*' :: post)))) =
      (if pre.isEmpty then [] else [mk_run pre false]) ++
        mk_run x true :: (if post.isEmpty then [] else [mk_run post false]) := by
  rw [span_runs, split_bold_decomp pre x post hp hx0 hx hpost]
  simp only [List.map_cons, List.map_nil, List.flatten,
    part_run_lit hp false, part_run_match false x, part_run_lit hpost false]
  cases hpre : pre.isEmpty <;> cases hpo : post.isEmpty <;> simp

theorem c5_bold_spans_witness :
    span_runs false (s2l ("a **b** c")) =
      [mk_run (s2l ("a ")) false, mk_run (s2l ("b")) true, mk_run (s2l (" c")) false] := by
  have he : s2l ("a **b** c") =
      s2l ("a ") ++ ('*' :: '*' :: (s2l ("b") ++ ('*' :: '*' :: s2l (" c")))) := by decide
  rw [he, c5_bold_spans (s2l ("a ")) (s2l ("b")) (s2l (" c"))
    (by decide) (by decide) (by decide) (by decide)]
  decide

/-!
### C6 — cell round-trip
-/

/-- The plain text contributed by one `re.split` part: a part passing the
bold-part test loses its delimiters, anything else is kept. -/
def part_plain (p : List Char) : List Char :=
  if is_bold_part p then part_inner p else p

/-- The plain-text rendering of one input line, as reconstructed from the
split parts of its display line. -/
def plain_of_line (line : List Char) : List Char :=
  ((split_bold (display_of_line line)).map part_plain).flatten

theorem part_runs_text (b : Bool) (parts : List (List Char)) :
    (((parts.map (part_run b)).flatten).map RunF.text).flatten =
      (parts.map part_plain).flatten := by
  induction parts with
  | nil => rfl
  | cons p parts ih =>
    simp only [List.map_cons, List.flatten_cons, List.map_append, List.flatten_append, ih]
    congr 1
    by_cases hb : is_bold_part p
    · simp [part_run, part_plain, hb, mk_run]
    · by_cases he : p.isEmpty
      · have hp : p = [] := by
          cases p with
          | nil => rfl
          | cons c cs => simp [List.isEmpty] at he
        subst hp
        simp [part_run, part_plain, hb]
      · simp [part_run, part_plain, hb, he, mk_run]

theorem para_text_render_line (b : Bool) (line : List Char) :
    para_text (render_line b line) = plain_of_line line := by
  have h := part_runs_text b (split_bold (display_of_line line))
  simpa [para_text, render_line, span_runs, plain_of_line] using h

/-- C6 (amended): writing a field text into a cell and re-reading the
cell returns the whitespace-stripped concatenation of the per-line
plain-text renderings, the lines joined with no separator: bullet lines
are whitespace-stripped with the marker normalized to `•`, numbered
lines whitespace-stripped, `**` delimiters removed by the split rule,
all other line content preserved. -/
theorem c6_roundtrip (t : List Char) (b : Bool) (i : Nat) :
    get_cell_text ⟨i, set_cell_text t b⟩ =
      py_strip (((split_nl t).map plain_of_line).flatten) := by
  rw [get_cell_text, set_cell_text]
  congr 1
  rw [List.map_map]
  have hf : (para_text ∘ render_line b) = plain_of_line :=
    funext (para_text_render_line b)
  rw [hf]

/-- C6 counterexample: for the two-line input `a\nb` the round-trip
returns `ab` — the newline (which the claim's "all other text preserved"
would keep) is dropped, because `_get_cell_text` concatenates the
paragraph texts with no separator. -/
theorem c6_counterexample :
    get_cell_text ⟨0, set_cell_text (s2l ("a\nb")) false⟩ = s2l ("ab")
    ∧ s2l ("ab") ≠ s2l ("a\nb") := by
  refine ⟨by decide, by decide⟩

/-!
### C4 — attachment splice
-/

theorem insert_before_last_cons (a : BodyEl) (m : List BodyEl) (hm : m ≠ [])
    (e : BodyEl) : insert_before_last (a :: m) e = a :: insert_before_last m e := by
  cases m with
  | nil => exact absurd rfl hm
  | cons b m2 =>
    cases m2 with
    | nil => rfl
    | cons c m3 => rfl

theorem insert_before_last_append (init : List BodyEl) (x e : BodyEl) :
    insert_before_last (init ++ [x]) e = init ++ [e, x] := by
  induction init with
  | nil => rfl
  | cons a init ih =>
    rw [List.cons_append, insert_before_last_cons a (init ++ [x]) (by simp) e, ih]
    rfl

theorem splice_loop_cons (body : List BodyEl) (e : BodyEl) (els : List BodyEl) :
    splice_loop body (e :: els) =
      splice_loop (if is_p_tbl e then insert_before_last body e else body) els := rfl

theorem splice_loop_append (els : List BodyEl) : ∀ (init : List BodyEl) (x : BodyEl),
    splice_loop (init ++ [x]) els = init ++ (els.filter is_p_tbl ++ [x]) := by
  induction els with
  | nil => intro init x; simp [splice_loop]
  | cons e els ih =>
    intro init x
    rw [splice_loop_cons]
    by_cases hp : is_p_tbl e
    · rw [if_pos hp]
      have he : insert_before_last (init ++ [x]) e = (init ++ [e]) ++ [x] := by
        rw [insert_before_last_append]
        simp
      rw [he, ih (init ++ [e]) x]
      simp [List.filter_cons, hp]
    · rw [if_neg hp, ih init x]
      simp [List.filter_cons, hp]

/-- C4 (amended): whenever a truthy (non-empty) `attachment_bytes` AND a
truthy attachment name are supplied, the assembler appends — immediately
before the body's final element, the captured `sectPr` — a page-break
paragraph, a banner paragraph naming the attachment, an italic note, and
then the attachment body's paragraph/table elements; if parsing the
bytes fails, the failure is caught locally and a single fallback
paragraph is appended instead, so the step is total and never aborts
generation. -/
theorem c4_attachment_splice (init : List BodyEl) (lastE : BodyEl) (ab : AttBytes)
    (an : JVal) (h1 : att_bytes_truthy ab = true) (h2 : py_truthy an = true) :
    append_attachment (init ++ [lastE]) (some ab) (some an) =
      init ++ (page_break_p :: banner_p an :: note_p ::
        ((match parse_docx ab with
          | .ok els => els.filter is_p_tbl
          | .error e => [fallback_p e]) ++ [lastE])) := by
  have key : ∀ (b : List BodyEl) (x e : BodyEl),
      insert_before_last (b ++ [x]) e = (b ++ [e]) ++ [x] := by
    intro b x e
    rw [insert_before_last_append]
    simp
  simp only [append_attachment, h1, h2, Bool.and_self, if_true]
  rw [key, key, key]
  cases hp : parse_docx ab with
  | ok els =>
    dsimp only
    rw [splice_loop_append els]
    simp
  | error e =>
    dsimp only
    rw [key]
    simp

/-- A tiny well-formed attachment docx: one paragraph and its own
`sectPr` (which the splice filter must drop). -/
def ab_demo : AttBytes := .wellFormed [.par [mk_run (s2l ("hi")) false], .sectPr]

/-- C4 counterexample: attachment bytes are supplied (truthy) but no
attachment name; the assembler appends nothing at all — identical output
to supplying no attachment — although the claim requires the banner,
note and splice whenever `attachment_bytes` is supplied. -/
theorem c4_counterexample :
    create_prompt_docx templates1 [] false (some ab_demo) none =
      create_prompt_docx templates1 [] false none none
    ∧ att_bytes_truthy ab_demo = true := by
  refine ⟨by decide, by decide⟩

theorem c4_attachment_splice_witness :
    append_attachment [BodyEl.par [], BodyEl.sectPr] (some ab_demo)
        (some (.str (s2l ("A.docx")))) =
      [BodyEl.par [], page_break_p, banner_p (.str (s2l ("A.docx"))), note_p,
       BodyEl.par [mk_run (s2l ("hi")) false], BodyEl.sectPr] :=
  (c4_attachment_splice [BodyEl.par []] BodyEl.sectPr ab_demo (.str (s2l ("A.docx")))
      (by decide) (by decide)).trans (by decide)

/-!
### C3 — missing and wrong-typed record fields
-/

theorem process_row_ok (pid ai : JVal) (hpid : pid.isStr = true) (hai : ai.isStr = true)
    (data : RecJ) (hdata : ∀ lk ∈ label_to_key, (pyGet data lk.2 (.str [])).isStr = true)
    (row : List Cell) : ∃ r, process_row pid ai data row = .ok r := by
  obtain ⟨ps, hps⟩ := isStr_exists hpid
  obtain ⟨as, has⟩ := isStr_exists hai
  subst hps
  subst has
  cases hu : unique_cells row with
  | nil => exact ⟨row, by simp [process_row, hu]⟩
  | cons c0 rest =>
    by_cases hdr : (is_sub (s2l ("DP##")) (get_cell_text c0)
        || is_sub (s2l ("FP##")) (get_cell_text c0)) = true
    · by_cases h2 : 1 < rest.length
      · simp only [process_row, hu, hdr, set_cell_text_e_str, dif_pos h2, if_true]
        exact ⟨_, rfl⟩
      · simp only [process_row, hu, hdr, set_cell_text_e_str, dif_neg h2, if_true]
        exact ⟨_, rfl⟩
    · have hdrf : (is_sub (s2l ("DP##")) (get_cell_text c0)
          || is_sub (s2l ("FP##")) (get_cell_text c0)) = false := by
        simpa using hdr
      cases hfl : first_label (get_cell_text c0) with
      | none => exact ⟨row, by simp [process_row, hu, hdrf, hfl]⟩
      | some lk =>
        have hlk : lk ∈ label_to_key := List.mem_of_find?_eq_some hfl
        obtain ⟨fv, hfv⟩ := isStr_exists (hdata lk hlk)
        by_cases hre : rest.isEmpty
        · exact ⟨row, by simp [process_row, hu, hdrf, hfl, hre]⟩
        · simp only [process_row, hu, hdrf, hfl, Bool.false_eq_true, if_false,
            hre, hfv, set_cell_text_e_str]
          exact ⟨_, rfl⟩

theorem WT_cons_str (data : RecJ) (hWT : WT data) (k s : List Char)
    (hs : (⟨k, .str s⟩ : List Char × JVal).2.isStr = true) :
    WT ((k, .str s) :: data) := by
  intro kv hkv
  rcases List.mem_cons.mp hkv with h | h
  · subst h
    exact Or.inl hs
  · exact hWT kv h

/-- Success and shape of `create_prompt_docx` on a well-typed record. -/
theorem create_prompt_docx_ok (templates : List Char → Option Docx) (t : Docx)
    (data : RecJ) (f : Bool) (ab : Option AttBytes) (an : Option JVal)
    (ht : templates (template_name f) = some t) (hWT : WT data) :
    ∃ ts tbl, pyGet data k_demo (.str (s2l ("Prompt"))) = .str ts ∧
      create_prompt_docx templates data f ab an =
        .ok ⟨fix_template_ref t.settings,
             update_header_filename t.header
               (py_str (pyGet data k_prompt_id (.str (s2l ("DP01")))) ++
                 s2l (" - Prompt Topic - ") ++ py_strip ts),
             tbl,
             append_attachment t.body ab an⟩ := by
  obtain ⟨ts, hts⟩ :=
    isStr_exists (pyGet_isStr data hWT k_demo (by decide) (.str (s2l ("Prompt"))) rfl)
  have hatt : (if py_truthy (pyGet data k_att_req .null) then pyGet data k_att_desc (.str [])
      else .str (s2l ("None required"))).isStr = true := by
    by_cases hb : py_truthy (pyGet data k_att_req .null) = true
    · simp only [if_pos hb]
      exact pyGet_isStr data hWT k_att_desc (by decide) (.str []) rfl
    · simp only [if_neg hb]
      rfl
  have hWT2 : WT ((k_att_text,
      if py_truthy (pyGet data k_att_req .null) then pyGet data k_att_desc (.str [])
      else .str (s2l ("None required"))) :: data) := by
    intro kv hkv
    rcases List.mem_cons.mp hkv with h | h
    · subst h
      exact Or.inl hatt
    · exact hWT kv h
  have hpid : (pyGet data k_prompt_id (.str (s2l ("DP01")))).isStr = true :=
    pyGet_isStr data hWT k_prompt_id (by decide) (.str (s2l ("DP01"))) rfl
  have hai : (pyGet ((k_att_text,
      if py_truthy (pyGet data k_att_req .null) then pyGet data k_att_desc (.str [])
      else .str (s2l ("None required"))) :: data) k_ai_prompt (.str [])).isStr = true :=
    pyGet_isStr _ hWT2 k_ai_prompt (by decide) (.str []) rfl
  have hdata2 : ∀ lk ∈ label_to_key, (pyGet ((k_att_text,
      if py_truthy (pyGet data k_att_req .null) then pyGet data k_att_desc (.str [])
      else .str (s2l ("None required"))) :: data) lk.2 (.str [])).isStr = true := by
    intro lk hlk
    have hne : lk.2 ≠ k_att_req :=
      (by decide : ∀ lk ∈ label_to_key, lk.2 ≠ k_att_req) lk hlk
    exact pyGet_isStr _ hWT2 lk.2 hne (.str []) rfl
  obtain ⟨tbl, htbl⟩ := map_e_ok
    (process_row (pyGet data k_prompt_id (.str (s2l ("DP01"))))
      (pyGet ((k_att_text,
        if py_truthy (pyGet data k_att_req .null) then pyGet data k_att_desc (.str [])
        else .str (s2l ("None required"))) :: data) k_ai_prompt (.str []))
      ((k_att_text,
        if py_truthy (pyGet data k_att_req .null) then pyGet data k_att_desc (.str [])
        else .str (s2l ("None required"))) :: data))
    t.table
    (fun row _ => process_row_ok _ _ hpid hai _ hdata2 row)
  refine ⟨ts, tbl, hts, ?_⟩
  simp only [create_prompt_docx, ht, hts, py_strip_e, htbl]

/-- C3 (amended): for every record whose present fields are well-typed
(strings; `attachment_required` of any type), document generation
succeeds — missing fields are silently defaulted — and a record missing
both `prompt_id` and `demonstrated_ai_capability` yields the header
label `DP01 - Prompt Topic - Prompt` (defaults `DP01` and `Prompt`, not
empty strings).  A present wrong-typed field is not defaulted and can
raise (see the counterexample). -/
theorem c3_missing_field_defaults (templates : List Char → Option Docx) (t : Docx)
    (data : RecJ) (f : Bool) (ab : Option AttBytes) (an : Option JVal)
    (ht : templates (template_name f) = some t) (hWT : WT data) :
    ∃ d, create_prompt_docx templates data f ab an = .ok d ∧
      (data.find? (fun kv => decide (kv.fst = k_prompt_id)) = none →
       data.find? (fun kv => decide (kv.fst = k_demo)) = none →
       d.header = update_header_filename t.header
         (s2l ("DP01 - Prompt Topic - Prompt"))) := by
  obtain ⟨ts, tbl, hts, hok⟩ := create_prompt_docx_ok templates t data f ab an ht hWT
  refine ⟨_, hok, ?_⟩
  intro hp hd
  have hpid : pyGet data k_prompt_id (.str (s2l ("DP01"))) = .str (s2l ("DP01")) := by
    simp [pyGet, hp]
  have hdemo : pyGet data k_demo (.str (s2l ("Prompt"))) = .str (s2l ("Prompt")) := by
    simp [pyGet, hd]
  have hts2 : ts = s2l ("Prompt") := by
    rw [hdemo] at hts
    injection hts with h
    exact h.symm
  show update_header_filename t.header
      (py_str (pyGet data k_prompt_id (.str (s2l ("DP01")))) ++
        s2l (" - Prompt Topic - ") ++ py_strip ts) =
    update_header_filename t.header (s2l ("DP01 - Prompt Topic - Prompt"))
  rw [hpid, hts2]
  congr 1

/-- Read the header of a successful generation result. -/
def doc_header_of (e : Except (List Char) Docx) : List (List Char) :=
  match e with
  | .ok d => d.header
  | .error _ => []

/-- C3 counterexample: an empty record is defaulted to the header label
`DP01 - Prompt Topic - Prompt` — not the empty-string defaults the claim
states — and a present wrong-typed field (`demonstrated_ai_capability`
as a number) makes generation raise `AttributeError` instead of being
silently defaulted. -/
theorem c3_counterexample :
    doc_header_of (create_prompt_docx templates1 [] false none none) =
      [s2l ("DP01 - Prompt Topic - Prompt")]
    ∧ s2l ("DP01 - Prompt Topic - Prompt") ≠ s2l (" - Prompt Topic - ")
    ∧ create_prompt_docx templates1 [(k_demo, .num 3)] false none none =
        .error attr_err := by
  refine ⟨by decide, by decide, by decide⟩

theorem c3_missing_field_defaults_witness :
    ∃ d, create_prompt_docx templates1 [] false none none = .ok d ∧
      (([] : RecJ).find? (fun kv => decide (kv.fst = k_prompt_id)) = none →
       ([] : RecJ).find? (fun kv => decide (kv.fst = k_demo)) = none →
       d.header = update_header_filename tpl1.header
         (s2l ("DP01 - Prompt Topic - Prompt"))) :=
  c3_missing_field_defaults templates1 tpl1 [] false none none rfl
    (fun kv hkv => absurd hkv (List.not_mem_nil kv))

/-!
### C10 — blank attachment content
-/

/-- C10: the standalone attachment builder returns `None` exactly when
the record's `attachment_content` is absent, empty or whitespace-only
(the field read with default `""`), even when `attachment_required` is
truthy; consequently packaging such a (well-typed) record produces only
its main document entry — no standalone attachment entry — and the main
document's body carries no spliced attachment section (it equals the
template body). -/
theorem c10_blank_attachment (p : RecJ) (cs : List Char)
    (hc : pyGet p k_att_content (.str []) = .str cs) :
    (generate_attachment_docx p = .ok none ↔ py_strip cs = [])
    ∧ (∀ (templates : List Char → Option Docx) (t : Docx) (f : Bool),
        templates (template_name f) = some t → WT p → py_strip cs = [] →
        ∃ nm d, create_zip templates [p] [f] = .ok [(nm, ZEntry.mainDoc d)] ∧
          d.body = t.body) := by
  have hgen_iff : generate_attachment_docx p = .ok none ↔ py_strip cs = [] := by
    constructor
    · intro hg
      by_contra hne
      have hie : ¬(py_strip cs).isEmpty = true := by
        simpa [List.isEmpty_iff] using hne
      simp [generate_attachment_docx, hc, py_strip_e, hie] at hg
    · intro he
      simp [generate_attachment_docx, hc, py_strip_e, he]
  refine ⟨hgen_iff, ?_⟩
  intro templates t f ht hWT he
  obtain ⟨ts, hts⟩ :=
    isStr_exists (pyGet_isStr p hWT k_demo (by decide) (.str (s2l ("Prompt"))) rfl)
  have hgen : generate_attachment_docx p = .ok none := hgen_iff.mpr he
  have hbytes : (if py_truthy (pyGet p k_att_req .null) then generate_attachment_docx p
      else .ok (none : Option (List BodyEl))) = .ok none := by
    by_cases hatt : py_truthy (pyGet p k_att_req .null) = true
    · rw [if_pos hatt]
      exact hgen
    · rw [if_neg hatt]
  obtain ⟨an', han⟩ : ∃ an', coerce_att_name
      (if py_truthy (pyGet p k_att_req .null) then
        some (pyGet p k_att_filename (.str (s2l ("Attachment.docx"))))
      else none) = .ok an' := by
    by_cases hatt : py_truthy (pyGet p k_att_req .null) = true
    · obtain ⟨fs, hfs⟩ := isStr_exists
        (pyGet_isStr p hWT k_att_filename (by decide) (.str (s2l ("Attachment.docx"))) rfl)
      rw [if_pos hatt, hfs]
      by_cases hb : py_truthy (.str fs) = true
      · simp only [coerce_att_name, hb, if_true]
        exact ⟨_, rfl⟩
      · simp only [coerce_att_name, hb, Bool.false_eq_true, if_false]
        exact ⟨_, rfl⟩
    · rw [if_neg hatt]
      exact ⟨none, rfl⟩
  obtain ⟨ts2, tbl2, hts2, hok⟩ := create_prompt_docx_ok templates t p f none an' ht hWT
  have hts_eq : ts2 = ts := by
    rw [hts] at hts2
    injection hts2 with h
    exact h.symm
  subst hts_eq
  refine ⟨py_str (pyGet p k_prompt_id (.str (s2l ("P01")))) ++ s2l (" - ") ++
      py_strip ts2 ++ s2l (".docx"),
    ⟨fix_template_ref t.settings,
     update_header_filename t.header
       (py_str (pyGet p k_prompt_id (.str (s2l ("DP01")))) ++
         s2l (" - Prompt Topic - ") ++ py_strip ts2),
     tbl2, append_attachment t.body none an'⟩, ?_, ?_⟩
  · have hz : ([p].zip [f]) = [(p, f)] := rfl
    simp only [create_zip, hz, zip_loop, hts, py_strip_e, hbytes, Option.map_none', han, hok]
    rfl
  · show append_attachment t.body none an' = t.body
    cases an' with
    | none => rfl
    | some v => rfl

/-- A well-typed record with `attachment_required` true but whitespace-only
`attachment_content`. -/
def p10 : RecJ := [(k_att_req, .bool true), (k_att_content, .str (s2l (" ")))]

theorem c10_blank_attachment_witness :
    generate_attachment_docx p10 = .ok none
    ∧ ∃ nm d, create_zip templates1 [p10] [false] = .ok [(nm, ZEntry.mainDoc d)] ∧
        d.body = tpl1.body := by
  have h := c10_blank_attachment p10 (s2l (" ")) (by decide)
  exact ⟨h.1.mpr (by decide), h.2 templates1 tpl1 false rfl
    (by unfold WT; decide) (by decide)⟩

/-!
### C9 — zip packaging
-/

def str_of (v : JVal) : List Char :=
  match v with
  | .str s => s
  | _ => []

/-- Does packaging include a standalone attachment entry for this record?
(`attachment_required` truthy, non-blank `attachment_content`, truthy
`attachment_filename` — the default filename counts as truthy). -/
def att_included (p : RecJ) : Bool :=
  py_truthy (pyGet p k_att_req .null)
  && !(py_strip (str_of (pyGet p k_att_content (.str [])))).isEmpty
  && py_truthy (pyGet p k_att_filename (.str (s2l ("Attachment.docx"))))

/-- The filename after the `.docx` coercion of `create_zip`. -/
def coerce_name (fs : List Char) : List Char :=
  if fs.isEmpty then fs
  else if ends_with (s2l (".docx")) fs then fs
  else rsplit_dot1 fs ++ s2l (".docx")

theorem coerce_att_name_str (fs : List Char) :
    coerce_att_name (some (.str fs)) = .ok (some (.str (coerce_name fs))) := by
  by_cases he : fs.isEmpty = true
  · have hfalse : py_truthy (.str fs) = false := by simp [py_truthy, he]
    simp [coerce_att_name, hfalse, coerce_name, he]
  · have htrue : py_truthy (.str fs) = true := by simp [py_truthy, he]
    simp [coerce_att_name, htrue, coerce_name, he]

theorem coerce_name_truthy (fs : List Char) (hfs : ¬fs.isEmpty = true) :
    py_truthy (.str (coerce_name fs)) = true := by
  rw [coerce_name, if_neg hfs]
  by_cases hew : ends_with (s2l (".docx")) fs = true
  · simp [hew, py_truthy, hfs]
  · simp only [hew, Bool.false_eq_true, if_false, py_truthy]
    have : (rsplit_dot1 fs ++ s2l (".docx")) ≠ [] := by
      simp [s2l]
    simpa [List.isEmpty_iff] using this

theorem coerce_name_falsy (fs : List Char) (hfs : fs.isEmpty = true) :
    py_truthy (.str (coerce_name fs)) = false := by
  rw [coerce_name, if_pos hfs]
  simp [py_truthy, hfs]

theorem coerce_none : coerce_att_name none = .ok none := rfl

theorem generate_attachment_docx_some (p : RecJ) (cs : List Char)
    (hc : pyGet p k_att_content (.str []) = .str cs)
    (hnbf : (py_strip cs).isEmpty = false) :
    ∃ els, generate_attachment_docx p = .ok (some els) := by
  simp only [generate_attachment_docx, hc, py_strip_e, hnbf, Bool.false_eq_true, if_false]
  exact ⟨_, rfl⟩

/-- Per-record shape of the archive: each record contributes its main
document entry plus one standalone attachment entry exactly when
`att_included` holds. -/
theorem zip_loop_count (templates : List Char → Option Docx) (tD tF : Docx)
    (hD : templates (template_name false) = some tD)
    (hF : templates (template_name true) = some tF) :
    ∀ l : List (RecJ × Bool), (∀ pf ∈ l, WT pf.1) →
      ∃ es, zip_loop templates l = .ok es ∧
        es.length = l.length + l.countP (fun pf => att_included pf.1) := by
  intro l
  induction l with
  | nil => intro _; exact ⟨[], rfl, rfl⟩
  | cons pf rest ih =>
    intro hWTl
    obtain ⟨p, f⟩ := pf
    have hWT : WT p := hWTl (p, f) (List.mem_cons_self _ _)
    obtain ⟨es', hes', hlen'⟩ := ih (fun x hx => hWTl x (List.mem_cons_of_mem _ hx))
    have ht : templates (template_name f) = some (if f then tF else tD) := by
      cases f
      · simpa using hD
      · simpa using hF
    obtain ⟨ts, hts⟩ :=
      isStr_exists (pyGet_isStr p hWT k_demo (by decide) (.str (s2l ("Prompt"))) rfl)
    obtain ⟨cs, hcs⟩ :=
      isStr_exists (pyGet_isStr p hWT k_att_content (by decide) (.str []) rfl)
    obtain ⟨fs, hfs⟩ := isStr_exists
      (pyGet_isStr p hWT k_att_filename (by decide) (.str (s2l ("Attachment.docx"))) rfl)
    by_cases hatt : py_truthy (pyGet p k_att_req .null) = true
    · by_cases hblank : (py_strip cs).isEmpty = true
      · -- attachment required, blank content: builder returns None, 1 entry
        have hgen : generate_attachment_docx p = .ok none := by
          simp [generate_attachment_docx, hcs, py_strip_e, hblank]
        obtain ⟨ts2, tbl2, hts2, hok⟩ := create_prompt_docx_ok templates
          (if f then tF else tD) p f none (some (.str (coerce_name fs))) ht hWT
        have hAI : att_included p = false := by
          simp [att_included, hcs, str_of, hblank]
        obtain ⟨es2, hes2, hlen2⟩ : ∃ es2,
            zip_loop templates ((p, f) :: rest) = .ok es2 ∧
              es2.length = es'.length + 1 := by
          simp only [zip_loop, hts, py_strip_e, hatt, if_true, hgen, hfs,
            coerce_att_name_str, Option.map_none', hok, hes']
          exact ⟨_, rfl, by simp⟩
        refine ⟨es2, hes2, ?_⟩
        rw [hlen2, hlen']
        simp [List.countP_cons, hAI]
        omega
      · -- attachment required with real content
        have hnbf : (py_strip cs).isEmpty = false := by simpa using hblank
        obtain ⟨els, hgen⟩ := generate_attachment_docx_some p cs hcs hnbf
        obtain ⟨ts2, tbl2, hts2, hok⟩ := create_prompt_docx_ok templates
          (if f then tF else tD) p f (some (.wellFormed els))
          (some (.str (coerce_name fs))) ht hWT
        by_cases hfse : fs.isEmpty = true
        · -- empty filename: falsy, no standalone entry
          have hAI : att_included p = false := by
            simp [att_included, hfs, py_truthy, hfse]
          obtain ⟨es2, hes2, hlen2⟩ : ∃ es2,
              zip_loop templates ((p, f) :: rest) = .ok es2 ∧
                es2.length = es'.length + 1 := by
            simp only [zip_loop, hts, py_strip_e, hatt, if_true, hgen, hfs,
              coerce_att_name_str, Option.map_some', hok, hes',
              coerce_name_falsy fs hfse, Bool.false_eq_true, if_false]
            exact ⟨_, rfl, by simp⟩
          refine ⟨es2, hes2, ?_⟩
          rw [hlen2, hlen']
          simp [List.countP_cons, hAI]
          omega
        · -- full path: standalone attachment entry included
          obtain ⟨ds, hds⟩ := isStr_exists
            (pyGet_isStr p hWT k_att_desc (by decide) (.str (s2l ("Sample"))) rfl)
          have h3 : py_truthy (.str fs) = true := by simp [py_truthy, hfse]
          have hAI : att_included p = true := by
            simp [att_included, hatt, hcs, str_of, hnbf, hfs, h3]
          obtain ⟨es2, hes2, hlen2⟩ : ∃ es2,
              zip_loop templates ((p, f) :: rest) = .ok es2 ∧
                es2.length = es'.length + 2 := by
            simp only [zip_loop, hts, py_strip_e, hatt, if_true, hgen, hfs,
              coerce_att_name_str, Option.map_some', hok, hes',
              coerce_name_truthy fs hfse, if_true, hds]
            exact ⟨_, rfl, by simp⟩
          refine ⟨es2, hes2, ?_⟩
          rw [hlen2, hlen']
          simp [List.countP_cons, hAI]
          omega
    · -- no attachment required: 1 entry
      have hattf : py_truthy (pyGet p k_att_req .null) = false := by simpa using hatt
      obtain ⟨ts2, tbl2, hts2, hok⟩ := create_prompt_docx_ok templates
        (if f then tF else tD) p f none none ht hWT
      have hAI : att_included p = false := by
        simp [att_included, hattf]
      obtain ⟨es2, hes2, hlen2⟩ : ∃ es2,
          zip_loop templates ((p, f) :: rest) = .ok es2 ∧
            es2.length = es'.length + 1 := by
        simp only [zip_loop, hts, py_strip_e, hattf, Bool.false_eq_true, if_false,
          coerce_none, Option.map_none', hok, hes']
        exact ⟨_, rfl, by simp⟩
      refine ⟨es2, hes2, ?_⟩
      rw [hlen2, hlen']
      simp [List.countP_cons, hAI]
      omega

/-- The end-to-end scenario: 3 daily and 2 Friday records, the third
daily record requiring an attachment with real content. -/
def scenario_records : List RecJ :=
  [ [(k_prompt_id, .str (s2l ("DP01"))), (k_demo, .str (s2l ("Summarization")))],
    [(k_prompt_id, .str (s2l ("DP02"))), (k_demo, .str (s2l ("Drafting")))],
    [(k_prompt_id, .str (s2l ("DP03"))), (k_demo, .str (s2l ("Planning"))),
     (k_att_req, .bool true), (k_att_content, .str (s2l ("Sample content"))),
     (k_att_desc, .str (s2l ("Notes"))), (k_att_filename, .str (s2l ("Notes.docx")))],
    [(k_prompt_id, .str (s2l ("FP01"))), (k_demo, .str (s2l ("Brainstorming")))],
    [(k_prompt_id, .str (s2l ("FP02"))), (k_demo, .str (s2l ("Creative Writing")))] ]

def scenario_flags : List Bool := [false, false, false, true, true]

/-- C9 (amended): for matching-length record/flag lists of well-typed
records (templates present), packaging succeeds and contains exactly one
main document per record plus one standalone attachment entry for each
record whose `attachment_required` is truthy AND whose
`attachment_content` is non-blank AND whose `attachment_filename` is
non-empty (`att_included`); and the concrete 3-daily + 2-Friday scenario
with one attachment-required record yields exactly 6 entries with no
filename collisions. -/
theorem c9_zip_entries :
    (∀ (templates : List Char → Option Docx) (tD tF : Docx),
      templates (template_name false) = some tD →
      templates (template_name true) = some tF →
      ∀ (rs : List RecJ) (bs : List Bool), rs.length = bs.length →
      (∀ r ∈ rs, WT r) →
      ∃ es, create_zip templates rs bs = .ok es ∧
        es.length = rs.length + rs.countP att_included)
    ∧ num_entries (create_zip templates1 scenario_records scenario_flags) = 6
    ∧ (entry_names (create_zip templates1 scenario_records scenario_flags)).Nodup := by
  refine ⟨?_, by decide, by decide⟩
  intro templates tD tF hD hF rs bs hlen hWT
  have hz : ∀ pf ∈ rs.zip bs, WT pf.1 := by
    intro pf hpf
    obtain ⟨a, b⟩ := pf
    exact hWT a (List.of_mem_zip hpf).1
  obtain ⟨es, hes, hcount⟩ := zip_loop_count templates tD tF hD hF (rs.zip bs) hz
  refine ⟨es, hes, ?_⟩
  rw [hcount]
  have hlz : (rs.zip bs).length = rs.length := by
    rw [List.length_zip]
    omega
  have hmap : (rs.zip bs).map Prod.fst = rs :=
    List.map_fst_zip rs bs (le_of_eq hlen)
  have hcp : (rs.zip bs).countP (fun pf => att_included pf.1) = rs.countP att_included := by
    conv_rhs => rw [← hmap]
    rw [List.countP_map]
    rfl
  rw [hlz, hcp]

/-- A plain well-typed record with no attachment. -/
def rA : RecJ := [(k_prompt_id, .str (s2l ("DP01"))), (k_demo, .str (s2l ("X")))]

/-- A record with `attachment_required` true but no attachment content. -/
def r9 : RecJ := [(k_att_req, .bool true)]

/-- C9 counterexample: a record with `attachment_required` true but
absent `attachment_content` contributes no standalone attachment entry
(1 zip entry, not the 2 the claim requires), and two identical records
produce colliding filenames, refuting the unconditional no-collision
part of the claim. -/
theorem c9_counterexample :
    py_truthy (pyGet r9 k_att_req .null) = true
    ∧ num_entries (create_zip templates1 [r9] [false]) = 1
    ∧ ¬(entry_names (create_zip templates1 [rA, rA] [false, false])).Nodup := by
  refine ⟨by decide, by decide, by decide⟩

theorem c9_zip_entries_witness :
    ∃ es, create_zip templates1 [rA] [false] = .ok es ∧
      es.length = [rA].length + List.countP att_included [rA] :=
  c9_zip_entries.1 templates1 tpl1 tpl1 rfl rfl [rA] [false] rfl
    (by intro r hr; rcases List.mem_cons.mp hr with h | h
        · subst h; unfold WT; decide
        · cases h)
